import Mathlib
set_option maxRecDepth 100000

/-!
Shallow embedding of the Busy Tag serial protocol client (`busytag.py`).

Bytes are modelled as `Nat` (values 0..255 on the wire), byte strings as
`List Nat`.  Strings passed to the Python API (file names) are modelled by
their encoded bytes.  The serial transport is modelled as the list of bytes
still to be read from the device; each operation returns its result, the
remaining input, and the bytes it wrote to the transport.
-/

/-- Encode an ASCII string literal as its byte list. -/
def str2bytes (s : String) : List Nat := s.data.map Char.toNat

/-- The CRLF line terminator `\r\n`. -/
def crlfB : List Nat := [13, 10]

/-- The 6-byte binary-payload terminator `\r\nOK\r\n`. -/
def termBytes : List Nat := [13, 10, 79, 75, 13, 10]

/-- ASCII whitespace, as stripped by Python's `bytes.strip()`
(` \t\n\r\x0b\x0c`). -/
def isWsByte (b : Nat) : Bool :=
  b == 9 || b == 10 || b == 11 || b == 12 || b == 13 || b == 32

/-- Python `bytes.strip()`: drop ASCII whitespace from both ends. -/
def stripBytes (l : List Nat) : List Nat :=
  ((l.dropWhile isWsByte).reverse.dropWhile isWsByte).reverse

/-- `serial.Serial.readline()`: read bytes up to and including the first
`\n` (byte 10).  `none` models the blocking call never returning because
the device sends no further newline. -/
def pyReadline : List Nat → Option (List Nat × List Nat)
  | [] => none
  | b :: r =>
    if b = 10 then some ([10], r)
    else
      match pyReadline r with
      | none => none
      | some (l, rest) => some (b :: l, rest)

/-- Python `split(sep)` for a one-byte separator: always returns at least
one (possibly empty) part. -/
def splitOnByte (d : Nat) : List Nat → List (List Nat)
  | [] => [[]]
  | b :: r =>
    if b = d then [] :: splitOnByte d r
    else
      match splitOnByte d r with
      | [] => [[b]]
      | p :: ps => (b :: p) :: ps

/-- Python `str.removeprefix` on byte lists. -/
def removePrefixBytes (p l : List Nat) : List Nat :=
  if p.isPrefixOf l then l.drop p.length else l

/-- Accumulator loop for decimal digit parsing. -/
def parseDigitsGo : Nat → List Nat → Option Nat
  | acc, [] => some acc
  | acc, b :: r =>
    if 48 ≤ b ∧ b ≤ 57 then parseDigitsGo (acc * 10 + (b - 48)) r else none

/-- Parse a non-empty string of ASCII decimal digits. -/
def parseDigits : List Nat → Option Nat
  | [] => none
  | l => parseDigitsGo 0 l

/-- Python `int()` on an ASCII byte string: surrounding whitespace is
allowed, then an optional sign and a non-empty run of digits.
(`int()`'s underscore separators and non-ASCII digits are not used by this
protocol and are not modelled.)  `none` models the raised `ValueError`. -/
def parsePyInt (s : List Nat) : Option Int :=
  let t := stripBytes s
  if t.headD 0 = 45 then (parseDigits t.tail).map (fun n => -(n : Int))
  else if t.headD 0 = 43 then (parseDigits t.tail).map (fun n => (n : Int))
  else (parseDigits t).map (fun n => (n : Int))

/-- Decimal rendering of a natural number (Python `'%d'` for `n ≥ 0`). -/
def natToDecimal (n : Nat) : List Nat :=
  if n < 10 then [48 + n]
  else natToDecimal (n / 10) ++ [48 + n % 10]
decreasing_by exact Nat.div_lt_self (by omega) (by omega)

/-- Decimal rendering of an integer (Python `'%d'`). -/
def intToDecimal (i : Int) : List Nat :=
  if i < 0 then 45 :: natToDecimal (-i).toNat else natToDecimal i.toNat

/-- State machine for Python's strict UTF-8 decoder.  `k` is the number of
continuation bytes still expected and `lo`/`hi` bound the next byte when
`k > 0` (the byte right after a lead byte has a restricted range, which
excludes overlong encodings, UTF-16 surrogates and code points above
U+10FFFF; later continuation bytes are plain `0x80..0xBF`). -/
def validUtf8From : Nat → Nat → Nat → List Nat → Bool
  | 0, _, _, [] => true
  | _ + 1, _, _, [] => false
  | 0, _, _, b :: r =>
    if b ≤ 127 then validUtf8From 0 0 0 r
    else if 194 ≤ b && b ≤ 223 then validUtf8From 1 128 191 r
    else if b = 224 then validUtf8From 2 160 191 r
    else if 225 ≤ b && b ≤ 236 then validUtf8From 2 128 191 r
    else if b = 237 then validUtf8From 2 128 159 r
    else if 238 ≤ b && b ≤ 239 then validUtf8From 2 128 191 r
    else if b = 240 then validUtf8From 3 144 191 r
    else if 241 ≤ b && b ≤ 243 then validUtf8From 3 128 191 r
    else if b = 244 then validUtf8From 3 128 143 r
    else false
  | k + 1, lo, hi, b :: r =>
    if lo ≤ b && b ≤ hi then validUtf8From k 128 191 r else false

/-- Validity of a byte string under Python's strict UTF-8 decoder
(`bytes.decode()`).  `build_exception` calls `.decode()`, which raises
`UnicodeDecodeError` exactly when this is `false`. -/
def validUtf8 (l : List Nat) : Bool := validUtf8From 0 0 0 l

deriving instance DecidableEq for Except

/-- The exception values *returned* by `build_exception`
(`busytag.py` lines 30-57).  `unexpected` is
`Exception('Unexpected error response ...')` and carries the raw input
whose decoded text appears in the Python message. -/
inductive Exc where
  | unexpected (raw : List Nat)
  | unknownError
  | invalidCommand
  | invalidArgument
  | fileNotFound
  | invalidSize
deriving DecidableEq, Repr

/-- `build_exception(error_response)` (`busytag.py` lines 30-57).
`.error ()` models the `UnicodeDecodeError` raised by
`error_response.decode()` on non-UTF-8 input; `.ok e` models the exception
value the function returns.  Splitting the decoded string on `':'` is done
on the bytes, which agrees with Python because `':'` never occurs inside a
multi-byte UTF-8 sequence (the strip is Python's `str.strip()`, which on
the ASCII text this protocol produces coincides with ASCII-whitespace
stripping). -/
def buildException (er : List Nat) : Except Unit Exc :=
  if (str2bytes "ERROR:").isPrefixOf er then
    if validUtf8 er then
      let parts := splitOnByte 58 (stripBytes er)
      if parts.length = 2 then
        let c := parts.getD 1 []
        if c = [45, 49] then .ok (.unexpected er)
        else if c = [48] then .ok .unknownError
        else if c = [49] then .ok .invalidCommand
        else if c = [50] then .ok .invalidArgument
        else if c = [51] then .ok .fileNotFound
        else if c = [52] then .ok .invalidSize
        else .ok (.unexpected er)
      else .ok (.unexpected er)
    else .error ()
  else if validUtf8 er then .ok (.unexpected er) else .error ()

/-- The ways a `Device` operation can fail (the exceptions its Python code
can raise, plus `blocked` for a blocking transport read that never
completes because the modelled device sends nothing further). -/
inductive DevError where
  /-- An exception built by `build_exception` and raised by `__readline`
  on an `ERROR` line. -/
  | raised (e : Exc)
  /-- `UnicodeDecodeError` raised by a `.decode()` call. -/
  | unicodeDecodeError
  /-- A locally raised `ValueError` (range check, `int()`, unpacking,
  `FileEntryType(...)`), carrying its message. -/
  | valueError (msg : List Nat)
  /-- A raised `IOError`, carrying its message (the code's
  "Malformed response ..." errors). -/
  | ioError (msg : List Nat)
  /-- A failed `assert` statement (`AssertionError`). -/
  | assertionError
  /-- The transport blocks forever (no further data from the device). -/
  | blocked
deriving DecidableEq, Repr

/-- `Device.__readline` (`busytag.py` lines 232-238): one raw line from the
serial port; raise `build_exception(result)` if the raw line starts with
`ERROR`; otherwise return the stripped line.  Returns the result together
with the remaining transport input. -/
def deviceReadline (input : List Nat) : Except DevError (List Nat) × List Nat :=
  match pyReadline input with
  | none => (.error .blocked, input)
  | some (line, rest) =>
    if (str2bytes "ERROR").isPrefixOf line then
      match buildException line with
      | .ok e => (.error (.raised e), rest)
      | .error _ => (.error .unicodeDecodeError, rest)
    else (.ok (stripBytes line), rest)

theorem pyReadline_length_lt (input line rest : List Nat)
    (h : pyReadline input = some (line, rest)) : rest.length < input.length := by
  induction input generalizing line rest with
  | nil => simp [pyReadline] at h
  | cons b r ih =>
    rw [pyReadline] at h
    by_cases hb : b = 10
    · rw [if_pos hb] at h
      simp only [Option.some.injEq, Prod.mk.injEq] at h
      obtain ⟨-, h2⟩ := h
      subst h2
      simp
    · rw [if_neg hb] at h
      cases hr : pyReadline r with
      | none => rw [hr] at h; simp at h
      | some p =>
        obtain ⟨l', r'⟩ := p
        rw [hr] at h
        simp only [Option.some.injEq, Prod.mk.injEq] at h
        obtain ⟨-, h2⟩ := h
        subst h2
        have := ih l' r' hr
        simp only [List.length_cons]
        omega

/-- `Device.__read_response` (`busytag.py` lines 224-230): keep calling
`__readline` until a line starts with the expected response prefix, and
return it.  Any other line (event notifications included) is dropped and
the loop continues. -/
def readResponse (pfx : List Nat) (input : List Nat) :
    Except DevError (List Nat) × List Nat :=
  match h : pyReadline input with
  | none => (.error .blocked, input)
  | some (line, rest) =>
    if (str2bytes "ERROR").isPrefixOf line then
      match buildException line with
      | .ok e => (.error (.raised e), rest)
      | .error _ => (.error .unicodeDecodeError, rest)
    else
      let s := stripBytes line
      if pfx.isPrefixOf s then (.ok s, rest)
      else readResponse pfx rest
termination_by input.length
decreasing_by exact pyReadline_length_lt input line rest h

/-- `serial.Serial.read(n)`: block until exactly `n` bytes are available
(for `n ≤ 0`, pyserial returns `b''` immediately). -/
def pyRead (n : Int) (input : List Nat) :
    Except DevError (List Nat) × List Nat :=
  if n.toNat ≤ input.length then (.ok (input.take n.toNat), input.drop n.toNat)
  else (.error .blocked, input)

/-- The last `n` elements (Python `l[-n:]` for `n > 0`). -/
def lastBytes (n : Nat) (l : List Nat) : List Nat := l.drop (l.length - n)

/-- Python `l[2:-6]`. -/
def slice2neg6 (l : List Nat) : List Nat := (l.drop 2).take (l.length - 8)

/-- `Device.read_file` (`busytag.py` lines 120-134).  The file name is
modelled by its encoded bytes.  Returns (result, remaining transport
input, bytes written to the transport). -/
def read_file (nameB : List Nat) (input : List Nat) :
    Except DevError (List Nat) × List Nat × List Nat :=
  let cmd := str2bytes "AT+GF=" ++ nameB ++ crlfB
  match readResponse (str2bytes "+GF:") input with
  | (.error e, rest) => (.error e, rest, cmd)
  | (.ok response, rest) =>
    if 44 ∈ response then
      match parsePyInt ((splitOnByte 44 response).getD 1 []) with
      | none => (.error (.valueError (str2bytes "invalid literal for int")),
                 rest, cmd)
      | some size =>
        match pyRead (size + 8) rest with
        | (.error e, rest2) => (.error e, rest2, cmd)
        | (.ok resp2, rest2) =>
          if lastBytes 6 resp2 = termBytes then (.ok (slice2neg6 resp2), rest2, cmd)
          else (.error .assertionError, rest2, cmd)
    else (.error (.ioError (str2bytes "Malformed response to command AT+GF")),
          rest, cmd)

/-- The command line `upload_file` sends:
`AT+UF=<name>,<len(data)>` followed by CRLF. -/
def uploadCmdBytes (nameB : List Nat) (len : Nat) : List Nat :=
  str2bytes "AT+UF=" ++ nameB ++ [44] ++ natToDecimal len ++ crlfB

/-- `Device.upload_file` (`busytag.py` lines 136-143): send the `AT+UF`
command, consume one line via `__readline`, write the payload, read 6
bytes and assert they equal `\r\nOK\r\n`. -/
def upload_file (nameB : List Nat) (data : List Nat) (input : List Nat) :
    Except DevError Unit × List Nat × List Nat :=
  let cmd := uploadCmdBytes nameB data.length
  match deviceReadline input with
  | (.error e, rest) => (.error e, rest, cmd)
  | (.ok _, rest) =>
    let written := cmd ++ data
    match pyRead 6 rest with
    | (.error e, rest2) => (.error e, rest2, written)
    | (.ok t, rest2) =>
      if t = termBytes then (.ok (), rest2, written)
      else (.error .assertionError, rest2, written)

/-- `Device.set_display_brightness` (`busytag.py` lines 166-170): range
check before any write, then send `AT+DB=<b>` and wait for an `OK`
reply. -/
def set_display_brightness (b : Int) (input : List Nat) :
    Except DevError Unit × List Nat × List Nat :=
  if b < 1 ∨ 100 < b then
    (.error (.valueError (str2bytes "Brightness must be between 1 and 100")),
     input, [])
  else
    let cmd := str2bytes "AT+DB=" ++ intToDecimal b ++ crlfB
    match readResponse (str2bytes "OK") input with
    | (.ok _, rest) => (.ok (), rest, cmd)
    | (.error e, rest) => (.error e, rest, cmd)

/-- `FileEntryType` (`busytag.py` lines 11-13). -/
inductive FileEntryType where
  | file
  | dir
deriving DecidableEq, Repr

/-- `FileEntry` (`busytag.py` lines 15-20); the decoded name is modelled
by its bytes. -/
structure FileEntry where
  name : List Nat
  size : Int
  type : FileEntryType
deriving DecidableEq, Repr

/-- The body of one `list_pictures` loop iteration past the sentinel
checks (`busytag.py` lines 96-97):
`filename, size = l.decode().removeprefix('+PL:').split(',')` followed by
`FileEntry(filename, int(size))`. -/
def parsePictureLine (l : List Nat) : Except DevError FileEntry :=
  if validUtf8 l then
    match splitOnByte 44 (removePrefixBytes (str2bytes "+PL:") l) with
    | [fn, sz] =>
      match parsePyInt sz with
      | some n => .ok ⟨fn, n, .file⟩
      | none => .error (.valueError (str2bytes "invalid literal for int"))
    | _ => .error (.valueError (str2bytes "unpacking"))
  else .error .unicodeDecodeError

/-- The body of one `list_files` loop iteration past the sentinel checks
(`busytag.py` lines 113-116): a three-way split, then
`FileEntry(filename, int(size), FileEntryType(entry_type))`
(`int(size)` is evaluated before `FileEntryType(entry_type)`). -/
def parseFileLine (l : List Nat) : Except DevError FileEntry :=
  if validUtf8 l then
    match splitOnByte 44 (removePrefixBytes (str2bytes "+FL:") l) with
    | [fn, et, sz] =>
      match parsePyInt sz with
      | some n =>
        if et = str2bytes "file" then .ok ⟨fn, n, .file⟩
        else if et = str2bytes "dir" then .ok ⟨fn, n, .dir⟩
        else .error (.valueError (str2bytes "not a valid FileEntryType"))
      | none => .error (.valueError (str2bytes "invalid literal for int"))
    | _ => .error (.valueError (str2bytes "unpacking"))
  else .error .unicodeDecodeError

/-- The `while True` loop of `Device.list_pictures` (`busytag.py` lines
86-98): read a line, silently consume `+evn` lines, stop at `OK`,
otherwise parse a `+PL:` entry. -/
def listPicturesLoop (input : List Nat) :
    Except DevError (List FileEntry) × List Nat :=
  match h : pyReadline input with
  | none => (.error .blocked, input)
  | some (line, rest) =>
    if (str2bytes "ERROR").isPrefixOf line then
      match buildException line with
      | .ok e => (.error (.raised e), rest)
      | .error _ => (.error .unicodeDecodeError, rest)
    else
      let l := stripBytes line
      if (str2bytes "+evn").isPrefixOf l then listPicturesLoop rest
      else if (str2bytes "OK").isPrefixOf l then (.ok [], rest)
      else
        match parsePictureLine l with
        | .error e => (.error e, rest)
        | .ok entry =>
          match listPicturesLoop rest with
          | (.ok es, r) => (.ok (entry :: es), r)
          | (.error e, r) => (.error e, r)
termination_by input.length
decreasing_by
  all_goals exact pyReadline_length_lt input line rest h

/-- The `while True` loop of `Device.list_files` (`busytag.py` lines
105-117). -/
def listFilesLoop (input : List Nat) :
    Except DevError (List FileEntry) × List Nat :=
  match h : pyReadline input with
  | none => (.error .blocked, input)
  | some (line, rest) =>
    if (str2bytes "ERROR").isPrefixOf line then
      match buildException line with
      | .ok e => (.error (.raised e), rest)
      | .error _ => (.error .unicodeDecodeError, rest)
    else
      let l := stripBytes line
      if (str2bytes "+evn").isPrefixOf l then listFilesLoop rest
      else if (str2bytes "OK").isPrefixOf l then (.ok [], rest)
      else
        match parseFileLine l with
        | .error e => (.error e, rest)
        | .ok entry =>
          match listFilesLoop rest with
          | (.ok es, r) => (.ok (entry :: es), r)
          | (.error e, r) => (.error e, r)
termination_by input.length
decreasing_by
  all_goals exact pyReadline_length_lt input line rest h

/-- `Device.list_pictures` (`busytag.py` lines 82-99): send `AT+GPL`, then
run the accumulation loop. -/
def list_pictures (input : List Nat) :
    Except DevError (List FileEntry) × List Nat × List Nat :=
  let r := listPicturesLoop input
  (r.1, r.2, str2bytes "AT+GPL" ++ crlfB)

/-- `Device.list_files` (`busytag.py` lines 101-118): send `AT+GFL`, then
run the accumulation loop. -/
def list_files (input : List Nat) :
    Except DevError (List FileEntry) × List Nat × List Nat :=
  let r := listFilesLoop input
  (r.1, r.2, str2bytes "AT+GFL" ++ crlfB)

/-- The byte stream a protocol-compliant device emits in reply to
`AT+GF=<name>` when it stores `data` under `name`: the header line
`+GF:<name>,<size>` (which `read_file` parses), the separating CRLF, the
raw payload, and the 6-byte terminator `\r\nOK\r\n`. -/
def gfReply (nameB data : List Nat) : List Nat :=
  str2bytes "+GF:" ++ nameB ++ [44] ++ natToDecimal data.length
    ++ crlfB ++ crlfB ++ data ++ termBytes


theorem pyReadline_line (c rest : List Nat) (h : 10 ∉ c) :
    pyReadline (c ++ 10 :: rest) = some (c ++ [10], rest) := by
  induction c with
  | nil => simp [pyReadline]
  | cons b m ih =>
    have hb : b ≠ 10 := by
      intro e
      exact h (e ▸ List.mem_cons_self b m)
    have hm : 10 ∉ m := fun hm' => h (List.mem_cons_of_mem _ hm')
    simp [pyReadline, hb, ih hm]

theorem readResponse_ok_pfx (pfx input l r : List Nat)
    (h : readResponse pfx input = (.ok l, r)) : pfx.isPrefixOf l = true := by
  have main : ∀ n input l r, input.length ≤ n →
      readResponse pfx input = (.ok l, r) → pfx.isPrefixOf l = true := by
    intro n
    induction n with
    | zero =>
      intro input l r hlen h
      have hnil : input = [] := List.eq_nil_of_length_eq_zero (Nat.le_zero.mp hlen)
      subst hnil
      rw [readResponse.eq_def] at h
      simp [pyReadline] at h
    | succ n ih =>
      intro input l r hlen h
      rw [readResponse.eq_def] at h
      cases hp : pyReadline input with
      | none => rw [hp] at h; simp at h
      | some p =>
        obtain ⟨line, rest⟩ := p
        rw [hp] at h
        simp only at h
        by_cases he : (str2bytes "ERROR").isPrefixOf line = true
        · rw [if_pos he] at h
          cases hb : buildException line <;> rw [hb] at h <;> simp at h
        · rw [if_neg he] at h
          by_cases hpx : pfx.isPrefixOf (stripBytes line) = true
          · rw [if_pos hpx] at h
            simp only [Prod.mk.injEq, Except.ok.injEq] at h
            rw [← h.1]
            exact hpx
          · rw [if_neg hpx] at h
            have hlt := pyReadline_length_lt input line rest hp
            exact ih rest l r (by omega) h
  exact main input.length input l r (le_refl _) h

theorem dropWhile_eq_self_head (p : Nat → Bool) (a : Nat) (m : List Nat)
    (h : p a = false) : (a :: m).dropWhile p = a :: m := by
  simp [List.dropWhile_cons, h]

theorem stripBytes_eq_self (l : List Nat) (h : ∀ b ∈ l, isWsByte b = false) :
    stripBytes l = l := by
  unfold stripBytes
  have h1 : l.dropWhile isWsByte = l := by
    cases l with
    | nil => rfl
    | cons a m => exact dropWhile_eq_self_head _ _ _ (h a (List.mem_cons_self a m))
  rw [h1]
  have h2 : l.reverse.dropWhile isWsByte = l.reverse := by
    cases hr : l.reverse with
    | nil => rfl
    | cons a m =>
      have ha : a ∈ l := by
        rw [← List.mem_reverse, hr]
        exact List.mem_cons_self a m
      exact dropWhile_eq_self_head _ _ _ (h a ha)
  rw [h2, List.reverse_reverse]

theorem stripBytes_wrap (a b : Nat) (m : List Nat)
    (ha : isWsByte a = false) (hb : isWsByte b = false) :
    stripBytes ((a :: (m ++ [b])) ++ [13, 10]) = a :: (m ++ [b]) := by
  unfold stripBytes
  rw [show (a :: (m ++ [b])) ++ [13, 10] = a :: (m ++ [b] ++ [13, 10]) by simp]
  rw [dropWhile_eq_self_head _ _ _ ha]
  rw [show (a :: (m ++ [b] ++ [13, 10])).reverse
        = 10 :: 13 :: (b :: (m.reverse ++ [a])) by simp]
  rw [show (10 :: 13 :: (b :: (m.reverse ++ [a]))).dropWhile isWsByte
        = (b :: (m.reverse ++ [a])).dropWhile isWsByte by simp [List.dropWhile_cons, isWsByte]]
  rw [dropWhile_eq_self_head _ _ _ hb]
  simp

theorem readResponse_step (pfx c rest : List Nat) (h10 : 10 ∉ c)
    (hErr : (str2bytes "ERROR").isPrefixOf (c ++ [13, 10]) = false) :
    readResponse pfx ((c ++ [13, 10]) ++ rest) =
      if pfx.isPrefixOf (stripBytes (c ++ [13, 10]))
      then (.ok (stripBytes (c ++ [13, 10])), rest)
      else readResponse pfx rest := by
  have h1 : pyReadline ((c ++ [13, 10]) ++ rest) = some (c ++ [13, 10], rest) := by
    rw [show (c ++ [13, 10]) ++ rest = (c ++ [13]) ++ 10 :: rest by simp]
    have h10' : 10 ∉ c ++ [13] := by
      intro hm
      rcases List.mem_append.mp hm with h' | h'
      · exact h10 h'
      · simp at h'
    have := pyReadline_line (c ++ [13]) rest h10'
    rw [this]
    simp
  rw [readResponse.eq_def, h1]
  simp only [hErr]
  simp

theorem deviceReadline_step (c rest : List Nat) (h10 : 10 ∉ c)
    (hErr : (str2bytes "ERROR").isPrefixOf (c ++ [13, 10]) = false) :
    deviceReadline ((c ++ [13, 10]) ++ rest) = (.ok (stripBytes (c ++ [13, 10])), rest) := by
  have h1 : pyReadline ((c ++ [13, 10]) ++ rest) = some (c ++ [13, 10], rest) := by
    rw [show (c ++ [13, 10]) ++ rest = (c ++ [13]) ++ 10 :: rest by simp]
    have h10' : 10 ∉ c ++ [13] := by
      intro hm
      rcases List.mem_append.mp hm with h' | h'
      · exact h10 h'
      · simp at h'
    have := pyReadline_line (c ++ [13]) rest h10'
    rw [this]
    simp
  rw [deviceReadline, h1]
  simp only [hErr]
  simp

theorem natToDecimal_ne_nil (n : Nat) : natToDecimal n ≠ [] := by
  rw [natToDecimal]
  split
  · simp
  · simp

theorem natToDecimal_digits (n : Nat) :
    ∀ b ∈ natToDecimal n, 48 ≤ b ∧ b ≤ 57 := by
  induction n using Nat.strong_induction_on with
  | _ n ih =>
    rw [natToDecimal]
    split
    · intro b hb
      simp at hb
      omega
    · intro b hb
      rcases List.mem_append.mp hb with h' | h'
      · exact ih (n / 10) (Nat.div_lt_self (by omega) (by omega)) b h'
      · simp at h'
        have := Nat.mod_lt n (show 0 < 10 by omega)
        omega

theorem parseDigitsGo_append (acc : Nat) (xs ys : List Nat) :
    parseDigitsGo acc (xs ++ ys) =
      match parseDigitsGo acc xs with
      | some a => parseDigitsGo a ys
      | none => none := by
  induction xs generalizing acc with
  | nil => simp [parseDigitsGo]
  | cons b m ih =>
    rw [List.cons_append, parseDigitsGo, parseDigitsGo]
    split
    · exact ih _
    · rfl

theorem parseDigitsGo_natToDecimal (n : Nat) : ∀ acc,
    parseDigitsGo acc (natToDecimal n)
      = some (acc * 10 ^ (natToDecimal n).length + n) := by
  induction n using Nat.strong_induction_on with
  | _ n ih =>
    intro acc
    rw [natToDecimal]
    split
    · rw [parseDigitsGo, if_pos (by omega), parseDigitsGo]
      simp only [Option.some.injEq, List.length_cons, List.length_nil, pow_one]
      omega
    · rw [parseDigitsGo_append]
      rw [ih (n / 10) (Nat.div_lt_self (by omega) (by omega))]
      simp only
      rw [parseDigitsGo]
      have hm := Nat.mod_lt n (show 0 < 10 by omega)
      rw [if_pos (by omega)]
      rw [parseDigitsGo]
      simp only [Option.some.injEq, List.length_append, List.length_cons,
        List.length_nil, Nat.add_zero, pow_succ]
      rw [show 48 + n % 10 - 48 = n % 10 from by omega]
      rw [Nat.add_mul, ← Nat.mul_assoc, Nat.add_assoc]
      congr 1
      omega

theorem parseDigits_natToDecimal (n : Nat) :
    parseDigits (natToDecimal n) = some n := by
  have hne := natToDecimal_ne_nil n
  rw [parseDigits.eq_def]
  split
  · exact absurd (by assumption) hne
  · rw [parseDigitsGo_natToDecimal]
    simp only [Nat.zero_mul, Nat.zero_add]

theorem splitOnByte_no_sep (d : Nat) (l : List Nat) (h : d ∉ l) :
    splitOnByte d l = [l] := by
  induction l with
  | nil => rfl
  | cons b m ih =>
    have hb : b ≠ d := by
      intro e
      exact h (e ▸ List.mem_cons_self b m)
    have hm : d ∉ m := fun hm' => h (List.mem_cons_of_mem _ hm')
    rw [splitOnByte, if_neg hb, ih hm]

theorem splitOnByte_append_sep (d : Nat) (a b : List Nat) (h : d ∉ a) :
    splitOnByte d (a ++ d :: b) = a :: splitOnByte d b := by
  induction a with
  | nil => simp [splitOnByte]
  | cons x m ih =>
    have hx : x ≠ d := by
      intro e
      exact h (e ▸ List.mem_cons_self x m)
    have hm : d ∉ m := fun hm' => h (List.mem_cons_of_mem _ hm')
    rw [List.cons_append, splitOnByte, if_neg hx, ih hm]

theorem validUtf8_ascii (l : List Nat) (h : ∀ b ∈ l, b ≤ 127) :
    validUtf8 l = true := by
  unfold validUtf8
  induction l with
  | nil => rfl
  | cons b m ih =>
    rw [validUtf8From]
    rw [if_pos (h b (List.mem_cons_self b m))]
    exact ih (fun x hx => h x (List.mem_cons_of_mem _ hx))

theorem isPrefixOf_append_self (p q : List Nat) : p.isPrefixOf (p ++ q) = true := by
  rw [List.isPrefixOf_iff_prefix]
  exact List.prefix_append p q

theorem isWsByte_false_of_ge (b : Nat) (h : 33 ≤ b) : isWsByte b = false := by
  simp [isWsByte]
  omega

theorem natToDecimal_singleton (m d : Nat) (h : natToDecimal m = [d]) :
    m < 10 ∧ d = 48 + m := by
  rw [natToDecimal] at h
  split at h
  · simp at h
    omega
  · exfalso
    have hlen := congrArg List.length h
    simp at hlen
    exact natToDecimal_ne_nil (m / 10) hlen

theorem intToDecimal_ne_small (n : Int) (hn : n < 0 ∨ 5 ≤ n) (d : Nat)
    (hd : 48 ≤ d ∧ d ≤ 52) : intToDecimal n ≠ [d] := by
  intro h
  rw [intToDecimal] at h
  split at h
  · have hne := natToDecimal_ne_nil (-n).toNat
    cases hx : natToDecimal (-n).toNat with
    | nil => exact hne hx
    | cons y ys =>
      rw [hx] at h
      simp at h
  · have h5 : 5 ≤ n := by
      rcases hn with h' | h'
      · omega
      · exact h'
    obtain ⟨hlt, hde⟩ := natToDecimal_singleton n.toNat d h
    omega

theorem intToDecimal_bytes (n : Int) :
    ∀ b ∈ intToDecimal n, b = 45 ∨ (48 ≤ b ∧ b ≤ 57) := by
  intro b hb
  rw [intToDecimal] at hb
  split at hb
  · rcases List.mem_cons.mp hb with h' | h'
    · exact Or.inl h'
    · exact Or.inr (natToDecimal_digits _ b h')
  · exact Or.inr (natToDecimal_digits _ b hb)

/-- C4: the error mapper sends codes 0-4 to their exact kinds; any other
numeric code (amended: and any malformed pattern that decodes as text)
yields the unexpected-response exception carrying the raw text. -/
theorem c4_error_code_mapping :
    (buildException (str2bytes "ERROR:0") = .ok .unknownError
      ∧ buildException (str2bytes "ERROR:1") = .ok .invalidCommand
      ∧ buildException (str2bytes "ERROR:2") = .ok .invalidArgument
      ∧ buildException (str2bytes "ERROR:3") = .ok .fileNotFound
      ∧ buildException (str2bytes "ERROR:4") = .ok .invalidSize)
    ∧ (∀ n : Int, n < 0 ∨ 5 ≤ n →
        buildException (str2bytes "ERROR:" ++ intToDecimal n)
          = .ok (.unexpected (str2bytes "ERROR:" ++ intToDecimal n)))
    ∧ (∀ s : List Nat, validUtf8 s = true →
        (str2bytes "ERROR:").isPrefixOf s = false →
        buildException s = .ok (.unexpected s))
    ∧ (∀ a b : List Nat,
        (∀ x ∈ a, 48 ≤ x ∧ x ≤ 57) → (∀ x ∈ b, 48 ≤ x ∧ x ≤ 57) →
        buildException (str2bytes "ERROR:" ++ a ++ 58 :: b)
          = .ok (.unexpected (str2bytes "ERROR:" ++ a ++ 58 :: b))) := by
  refine ⟨⟨by decide, by decide, by decide, by decide, by decide⟩, ?_, ?_, ?_⟩
  · -- other numeric codes
    intro n hn
    have hcb := intToDecimal_bytes n
    have hE : str2bytes "ERROR:" = [69, 82, 82, 79, 82, 58] := rfl
    have h127 : ∀ x ∈ str2bytes "ERROR:" ++ intToDecimal n, x ≤ 127 := by
      intro x hx
      rcases List.mem_append.mp hx with h' | h'
      · rw [hE] at h'
        simp at h'
        rcases h' with h | h | h | h | h | h <;> omega
      · rcases hcb x h' with h | h <;> omega
    have hutf := validUtf8_ascii _ h127
    have hstrip : stripBytes (str2bytes "ERROR:" ++ intToDecimal n)
        = str2bytes "ERROR:" ++ intToDecimal n := by
      apply stripBytes_eq_self
      intro x hx
      apply isWsByte_false_of_ge
      rcases List.mem_append.mp hx with h' | h'
      · rw [hE] at h'
        simp at h'
        rcases h' with h | h | h | h | h | h <;> omega
      · rcases hcb x h' with h | h <;> omega
    have hno58 : 58 ∉ intToDecimal n := by
      intro hmem
      rcases hcb 58 hmem with h | h <;> omega
    have hsplit : splitOnByte 58 (str2bytes "ERROR:" ++ intToDecimal n)
        = [[69, 82, 82, 79, 82], intToDecimal n] := by
      rw [show str2bytes "ERROR:" ++ intToDecimal n
            = [69, 82, 82, 79, 82] ++ 58 :: intToDecimal n from rfl]
      rw [splitOnByte_append_sep 58 [69, 82, 82, 79, 82] _ (by decide)]
      rw [splitOnByte_no_sep 58 _ hno58]
    rw [buildException.eq_def]
    rw [isPrefixOf_append_self]
    simp only [if_true]
    rw [hutf]
    simp only [if_true]
    rw [hstrip, hsplit]
    simp only [List.length_cons, List.length_nil, List.getD]
    by_cases hm1 : intToDecimal n = [45, 49]
    · simp [hm1]
    · have h48 := intToDecimal_ne_small n hn 48 (by omega)
      have h49 := intToDecimal_ne_small n hn 49 (by omega)
      have h50 := intToDecimal_ne_small n hn 50 (by omega)
      have h51 := intToDecimal_ne_small n hn 51 (by omega)
      have h52 := intToDecimal_ne_small n hn 52 (by omega)
      simp [hm1, h48, h49, h50, h51, h52]
  · -- malformed: input not starting with `ERROR:`
    intro s hv hp
    rw [buildException.eq_def, hp]
    simp [hv]
  · -- malformed: wrong field count `ERROR:<a>:<b>`
    intro a b ha hb
    have hE : str2bytes "ERROR:" = [69, 82, 82, 79, 82, 58] := rfl
    have h127 : ∀ x ∈ str2bytes "ERROR:" ++ a ++ 58 :: b, x ≤ 127 := by
      intro x hx
      rcases List.mem_append.mp hx with h' | h'
      · rcases List.mem_append.mp h' with h'' | h''
        · rw [hE] at h''
          simp at h''
          rcases h'' with h | h | h | h | h | h <;> omega
        · have := ha x h''
          omega
      · rcases List.mem_cons.mp h' with h'' | h''
        · omega
        · have := hb x h''
          omega
    have hutf := validUtf8_ascii _ h127
    have hstrip : stripBytes (str2bytes "ERROR:" ++ a ++ 58 :: b)
        = str2bytes "ERROR:" ++ a ++ 58 :: b := by
      apply stripBytes_eq_self
      intro x hx
      apply isWsByte_false_of_ge
      rcases List.mem_append.mp hx with h' | h'
      · rcases List.mem_append.mp h' with h'' | h''
        · rw [hE] at h''
          simp at h''
          rcases h'' with h | h | h | h | h | h <;> omega
        · have := ha x h''
          omega
      · rcases List.mem_cons.mp h' with h'' | h''
        · omega
        · have := hb x h''
          omega
    have hno58a : 58 ∉ a := by
      intro hmem
      have := ha 58 hmem
      omega
    have hno58b : 58 ∉ b := by
      intro hmem
      have := hb 58 hmem
      omega
    have hpx : (str2bytes "ERROR:").isPrefixOf (str2bytes "ERROR:" ++ a ++ 58 :: b)
        = true := by
      rw [List.append_assoc]
      exact isPrefixOf_append_self _ _
    have hsplit : splitOnByte 58 (str2bytes "ERROR:" ++ a ++ 58 :: b)
        = [[69, 82, 82, 79, 82], a, b] := by
      rw [show str2bytes "ERROR:" ++ a ++ 58 :: b
            = [69, 82, 82, 79, 82] ++ 58 :: (a ++ 58 :: b) from by simp [hE]]
      rw [splitOnByte_append_sep 58 [69, 82, 82, 79, 82] _ (by decide)]
      rw [splitOnByte_append_sep 58 a b hno58a]
      rw [splitOnByte_no_sep 58 b hno58b]
    rw [buildException.eq_def, hpx]
    simp only [if_true]
    rw [hutf]
    simp only [if_true]
    rw [hstrip, hsplit]
    simp

/-- C4 witness: the general clauses instantiated at `ERROR:7`, `zzz`, and
`ERROR:1:2`. -/
theorem c4_error_code_mapping_witness :
    buildException (str2bytes "ERROR:" ++ intToDecimal 7)
      = .ok (.unexpected (str2bytes "ERROR:" ++ intToDecimal 7))
    ∧ buildException (str2bytes "zzz") = .ok (.unexpected (str2bytes "zzz"))
    ∧ buildException (str2bytes "ERROR:" ++ [49] ++ 58 :: [50])
      = .ok (.unexpected (str2bytes "ERROR:" ++ [49] ++ 58 :: [50])) :=
  ⟨c4_error_code_mapping.2.1 7 (by omega),
   c4_error_code_mapping.2.2.1 (str2bytes "zzz") (by decide) (by decide),
   c4_error_code_mapping.2.2.2 [49] [50] (by decide) (by decide)⟩

/-- C4 counterexample: a malformed pattern that is not UTF-8 decodable
makes the mapper raise `UnicodeDecodeError` instead of returning the
unexpected-response exception, so the claim fails for byte `0xFF`. -/
theorem c4_undecodable_input_raises : buildException [255] = .error () := by
  decide

/-- C5: `build_exception` is not total — on the non-UTF-8 error frame
`ERROR:<0xFF>` the `.decode()` call raises `UnicodeDecodeError` instead of
producing an exception value. -/
theorem c5_mapper_raises_on_invalid_utf8 :
    buildException (str2bytes "ERROR:" ++ [255]) = .error () := by
  decide

theorem not_error_of_evn (e : List Nat)
    (h : (str2bytes "+evn").isPrefixOf e = true) :
    (str2bytes "ERROR").isPrefixOf (e ++ [13, 10]) = false := by
  cases e with
  | nil => simp [str2bytes, List.isPrefixOf] at h
  | cons b m =>
    have hb : b = 43 := by
      rw [show str2bytes "+evn" = [43, 101, 118, 110] from rfl] at h
      simp [List.isPrefixOf] at h
      omega
    subst hb
    rw [show str2bytes "ERROR" = [69, 82, 82, 79, 82] from rfl]
    simp [List.isPrefixOf]

/-- C2 (amended): awaiting a response discards any run of `+evn` event
lines arriving first, provided the expected prefix does not itself match
those event lines, and every line it does return starts with the expected
prefix. -/
theorem c2_await_response_skips_event_lines :
    (∀ (pfx : List Nat) (evs : List (List Nat)) (rest : List Nat),
      (∀ e ∈ evs, (str2bytes "+evn").isPrefixOf e = true ∧ 10 ∉ e
        ∧ pfx.isPrefixOf (stripBytes (e ++ [13, 10])) = false) →
      readResponse pfx ((evs.map (fun e => e ++ [13, 10])).flatten ++ rest)
        = readResponse pfx rest)
    ∧ (∀ pfx input l r, readResponse pfx input = (.ok l, r) →
        pfx.isPrefixOf l = true) := by
  constructor
  · intro pfx evs rest h
    induction evs with
    | nil => simp
    | cons e es ih =>
      obtain ⟨hpe, h10, hnp⟩ := h e (List.mem_cons_self e es)
      have hErr := not_error_of_evn e hpe
      have step := readResponse_step pfx e
        ((es.map (fun e => e ++ [13, 10])).flatten ++ rest) h10 hErr
      rw [hnp] at step
      simp only [Bool.false_eq_true, if_false] at step
      have ih' := ih (fun e' he' => h e' (List.mem_cons_of_mem _ he'))
      calc readResponse pfx
            (((e :: es).map (fun e => e ++ [13, 10])).flatten ++ rest)
          = readResponse pfx ((e ++ [13, 10])
              ++ ((es.map (fun e => e ++ [13, 10])).flatten ++ rest)) := by
            simp
        _ = readResponse pfx ((es.map (fun e => e ++ [13, 10])).flatten ++ rest) := step
        _ = readResponse pfx rest := ih'
  · exact fun pfx input l r h => readResponse_ok_pfx pfx input l r h

/-- C2 witness: one event line before a `+GF:` reply is discarded; a
returned `OK` line indeed starts with the expected prefix. -/
theorem c2_await_response_skips_event_lines_witness :
    readResponse (str2bytes "+GF:")
        (([str2bytes "+evn:busy"].map (fun e => e ++ [13, 10])).flatten
          ++ (str2bytes "+GF:a,1" ++ crlfB))
      = readResponse (str2bytes "+GF:") (str2bytes "+GF:a,1" ++ crlfB)
    ∧ (str2bytes "OK").isPrefixOf (str2bytes "OK") = true :=
  ⟨c2_await_response_skips_event_lines.1 (str2bytes "+GF:")
      [str2bytes "+evn:busy"] (str2bytes "+GF:a,1" ++ crlfB)
      (by intro e he; simp at he; subst he; refine ⟨by decide, by decide, by decide⟩),
   c2_await_response_skips_event_lines.2 (str2bytes "OK")
      (str2bytes "OK" ++ crlfB) (str2bytes "OK") []
      (by simp [readResponse, pyReadline, str2bytes, crlfB, stripBytes, isWsByte])⟩

/-- C2 counterexample: with expected prefix `+evn`, the event line
`+evn!` is returned to the caller, so "event lines are never returned"
fails for this prefix. -/
theorem c2_event_line_returned_for_event_prefix :
    readResponse (str2bytes "+evn") (str2bytes "+evn!" ++ crlfB)
      = (.ok (str2bytes "+evn!"), []) := by
  simp [readResponse, pyReadline, str2bytes, crlfB, stripBytes, isWsByte]

/-- C3 (amended): a data line that does not start with the expected prefix
is silently skipped — `__read_response` keeps reading further lines
instead of failing with MalformedResponse. -/
theorem c3_nonmatching_data_line_silently_skipped :
    ∀ (pfx d rest : List Nat), 10 ∉ d →
      (str2bytes "ERROR").isPrefixOf (d ++ [13, 10]) = false →
      pfx.isPrefixOf (stripBytes (d ++ [13, 10])) = false →
      readResponse pfx ((d ++ [13, 10]) ++ rest) = readResponse pfx rest := by
  intro pfx d rest h10 hErr hnp
  rw [readResponse_step pfx d rest h10 hErr, hnp]
  simp

/-- C3 witness: the non-matching data line `+XX:7` before a `+DB:` reply
is skipped and reading continues. -/
theorem c3_nonmatching_data_line_silently_skipped_witness :
    readResponse (str2bytes "+DB:")
        ((str2bytes "+XX:7" ++ [13, 10]) ++ (str2bytes "+DB:50" ++ crlfB))
      = readResponse (str2bytes "+DB:") (str2bytes "+DB:50" ++ crlfB) :=
  c3_nonmatching_data_line_silently_skipped (str2bytes "+DB:")
    (str2bytes "+XX:7") (str2bytes "+DB:50" ++ crlfB)
    (by decide) (by decide) (by decide)

/-- C3 counterexample: with expected prefix `+DB:`, the non-matching data
line `+XX:7` does not make the operation fail — the reader continues and
returns the later `+DB:50` line. -/
theorem c3_nonmatching_data_line_not_rejected :
    readResponse (str2bytes "+DB:")
        (str2bytes "+XX:7" ++ crlfB ++ str2bytes "+DB:50" ++ crlfB)
      = (.ok (str2bytes "+DB:50"), []) := by
  simp [readResponse, pyReadline, str2bytes, crlfB, stripBytes, isWsByte]

theorem upload_file_exchange (nameB data ack t rest : List Nat)
    (h10 : 10 ∉ ack)
    (hErr : (str2bytes "ERROR").isPrefixOf (ack ++ [13, 10]) = false)
    (ht : t.length = 6) :
    upload_file nameB data ((ack ++ [13, 10]) ++ (t ++ rest))
      = (if t = termBytes
         then (.ok (), rest, uploadCmdBytes nameB data.length ++ data)
         else (.error .assertionError, rest,
               uploadCmdBytes nameB data.length ++ data)) := by
  have hdl := deviceReadline_step ack (t ++ rest) h10 hErr
  have h6 : (6 : Int).toNat = 6 := by omega
  have hlen : 6 ≤ (t ++ rest).length := by
    simp [List.length_append, ht]
  have hpyr6 : pyRead 6 (t ++ rest) = (.ok t, rest) := by
    rw [pyRead, h6, if_pos hlen]
    rw [List.take_left' ht, List.drop_left' ht]
  rw [upload_file]
  simp only [hdl, hpyr6]

theorem read_file_gf_exchange (nameB data t rest : List Nat)
    (hn10 : 10 ∉ nameB) (hn44 : 44 ∉ nameB) (ht : t.length = 6) :
    read_file nameB
        ((str2bytes "+GF:" ++ nameB ++ [44] ++ natToDecimal data.length
            ++ [13, 10]) ++ ([13, 10] ++ data ++ (t ++ rest)))
      = (if t = termBytes
         then (.ok data, rest, str2bytes "AT+GF=" ++ nameB ++ crlfB)
         else (.error .assertionError, rest,
               str2bytes "AT+GF=" ++ nameB ++ crlfB)) := by
  have hdig := natToDecimal_digits data.length
  have hdne := natToDecimal_ne_nil data.length
  -- the header content, in head-cons normal form
  have hshape : str2bytes "+GF:" ++ nameB ++ [44] ++ natToDecimal data.length
      = 43 :: (([71, 70, 58] ++ nameB ++ [44]
          ++ (natToDecimal data.length).dropLast)
          ++ [(natToDecimal data.length).getLast hdne]) := by
    conv_lhs => rw [← List.dropLast_append_getLast hdne]
    simp [str2bytes]
  have h10hdr : (10 : Nat)
      ∉ str2bytes "+GF:" ++ nameB ++ [44] ++ natToDecimal data.length := by
    intro hm
    simp only [List.mem_append] at hm
    rcases hm with ((h' | h') | h') | h'
    · rw [show str2bytes "+GF:" = [43, 71, 70, 58] from rfl] at h'
      simp at h'
    · exact hn10 h'
    · simp at h'
    · have := hdig 10 h'
      omega
  have hErrHdr : (str2bytes "ERROR").isPrefixOf
      ((str2bytes "+GF:" ++ nameB ++ [44] ++ natToDecimal data.length)
        ++ [13, 10]) = false := by
    rw [hshape]
    rw [show str2bytes "ERROR" = [69, 82, 82, 79, 82] from rfl]
    simp [List.isPrefixOf]
  have hstrip : stripBytes
      ((str2bytes "+GF:" ++ nameB ++ [44] ++ natToDecimal data.length)
        ++ [13, 10])
      = str2bytes "+GF:" ++ nameB ++ [44] ++ natToDecimal data.length := by
    rw [hshape]
    apply stripBytes_wrap
    · decide
    · apply isWsByte_false_of_ge
      have := hdig _ (List.getLast_mem hdne)
      omega
  have hpfx : (str2bytes "+GF:").isPrefixOf
      (str2bytes "+GF:" ++ nameB ++ [44] ++ natToDecimal data.length) = true := by
    rw [show str2bytes "+GF:" ++ nameB ++ [44] ++ natToDecimal data.length
          = str2bytes "+GF:" ++ (nameB ++ [44] ++ natToDecimal data.length)
          from by simp]
    exact isPrefixOf_append_self _ _
  have step := readResponse_step (str2bytes "+GF:")
    (str2bytes "+GF:" ++ nameB ++ [44] ++ natToDecimal data.length)
    ([13, 10] ++ data ++ (t ++ rest)) h10hdr hErrHdr
  rw [hstrip, hpfx] at step
  simp only [if_true] at step
  rw [read_file]
  simp only [step]
  have h44mem : (44 : Nat)
      ∈ str2bytes "+GF:" ++ nameB ++ [44] ++ natToDecimal data.length := by
    simp
  rw [if_pos h44mem]
  have h44gf : (44 : Nat) ∉ str2bytes "+GF:" ++ nameB := by
    intro hm
    rcases List.mem_append.mp hm with h' | h'
    · rw [show str2bytes "+GF:" = [43, 71, 70, 58] from rfl] at h'
      simp at h'
    · exact hn44 h'
  have h44dig : (44 : Nat) ∉ natToDecimal data.length := by
    intro hm
    have := hdig 44 hm
    omega
  have hsplit : splitOnByte 44
      (str2bytes "+GF:" ++ nameB ++ [44] ++ natToDecimal data.length)
      = [str2bytes "+GF:" ++ nameB, natToDecimal data.length] := by
    rw [show str2bytes "+GF:" ++ nameB ++ [44] ++ natToDecimal data.length
          = (str2bytes "+GF:" ++ nameB) ++ 44 :: natToDecimal data.length
          from by simp]
    rw [splitOnByte_append_sep 44 _ _ h44gf]
    rw [splitOnByte_no_sep 44 _ h44dig]
  have hparse : parsePyInt (natToDecimal data.length)
      = some (data.length : Int) := by
    have hself : stripBytes (natToDecimal data.length)
        = natToDecimal data.length := by
      apply stripBytes_eq_self
      intro x hx
      apply isWsByte_false_of_ge
      have := hdig x hx
      omega
    have hhead : (natToDecimal data.length).headD 0 ≠ 45
        ∧ (natToDecimal data.length).headD 0 ≠ 43 := by
      cases hds : natToDecimal data.length with
      | nil => exact absurd hds hdne
      | cons d0 ds' =>
        have hd0 : 48 ≤ d0 ∧ d0 ≤ 57 := by
          apply hdig
          rw [hds]
          exact List.mem_cons_self d0 ds'
        constructor <;> simp <;> omega
    rw [parsePyInt, hself]
    simp only [if_neg hhead.1, if_neg hhead.2]
    rw [parseDigits_natToDecimal]
    rfl
  have htoNat : ((data.length : Int) + 8).toNat = data.length + 8 := by omega
  have hblock : ([13, 10] ++ data ++ t).length = data.length + 8 := by
    simp [List.length_append, ht]
    try omega
  have hretake : [13, 10] ++ data ++ (t ++ rest)
      = ([13, 10] ++ data ++ t) ++ rest := by simp
  have hpyr : pyRead ((data.length : Int) + 8) ([13, 10] ++ data ++ (t ++ rest))
      = (.ok ([13, 10] ++ data ++ t), rest) := by
    rw [pyRead, htoNat, hretake]
    rw [if_pos (by rw [List.length_append, hblock]; omega)]
    rw [List.take_left' hblock, List.drop_left' hblock]
  have hlast : lastBytes 6 ([13, 10] ++ data ++ t) = t := by
    rw [lastBytes, hblock]
    rw [show [13, 10] ++ data ++ t = ([13, 10] ++ data) ++ t from by simp]
    rw [show data.length + 8 - 6 = ([13, 10] ++ data).length from by simp]
    rw [List.drop_left]
  have hslice : slice2neg6 ([13, 10] ++ data ++ t) = data := by
    rw [slice2neg6, hblock]
    rw [show [13, 10] ++ data ++ t = 13 :: 10 :: (data ++ t) from by simp]
    rw [show data.length + 8 - 8 = data.length from by omega]
    simp only [List.drop_succ_cons, List.drop_zero]
    exact List.take_left data t
  simp only [hsplit, List.getD_cons_succ, List.getD_cons_zero, hparse, hpyr,
    hlast, hslice]

/-- C1 (amended): for every file name whose encoded bytes contain neither
a comma nor a line feed, and every payload (any size, 0 and 1 included),
`upload_file` writes the payload verbatim after its command line, and
`read_file` against the compliant device reply storing that payload
returns it byte-for-byte, with the framing (header line, separating CRLF,
payload, 6-byte terminator) consumed completely. -/
theorem c1_upload_then_read_round_trip :
    ∀ (nameB data ack extra1 extra2 : List Nat),
      10 ∉ nameB → 44 ∉ nameB → 10 ∉ ack →
      (str2bytes "ERROR").isPrefixOf (ack ++ [13, 10]) = false →
      upload_file nameB data ((ack ++ [13, 10]) ++ (termBytes ++ extra1))
        = (.ok (), extra1, uploadCmdBytes nameB data.length ++ data)
      ∧ read_file nameB (gfReply nameB data ++ extra2)
        = (.ok data, extra2, str2bytes "AT+GF=" ++ nameB ++ crlfB) := by
  intro nameB data ack extra1 extra2 hn10 hn44 ha10 haErr
  constructor
  · have h := upload_file_exchange nameB data ack termBytes extra1 ha10 haErr
      (by decide)
    rw [if_pos rfl] at h
    exact h
  · have h := read_file_gf_exchange nameB data termBytes extra2 hn10 hn44
      (by decide)
    rw [if_pos rfl] at h
    have hshape : gfReply nameB data ++ extra2
        = (str2bytes "+GF:" ++ nameB ++ [44] ++ natToDecimal data.length
            ++ [13, 10])
          ++ ([13, 10] ++ data ++ (termBytes ++ extra2)) := by
      rw [gfReply]
      simp [crlfB]
    rw [hshape]
    exact h

/-- C1 witness: the round trip at file name `a.png` and one-byte payload
`[7]`. -/
theorem c1_upload_then_read_round_trip_witness :
    upload_file (str2bytes "a.png") [7]
        ((str2bytes "ack" ++ [13, 10]) ++ (termBytes ++ []))
      = (.ok (), [], uploadCmdBytes (str2bytes "a.png") (List.length [7]) ++ [7])
    ∧ read_file (str2bytes "a.png") (gfReply (str2bytes "a.png") [7] ++ [])
      = (.ok [7], [], str2bytes "AT+GF=" ++ str2bytes "a.png" ++ crlfB) :=
  c1_upload_then_read_round_trip (str2bytes "a.png") [7] (str2bytes "ack") [] []
    (by decide) (by decide) (by decide) (by decide)

/-- C1 counterexample: with the comma-containing file name `a,b` the
upload succeeds, but `read_file` against the compliant device reply fails
with a `ValueError` from `int(b'b')` instead of returning the payload, so
the round trip does not hold for every filename. -/
theorem c1_comma_filename_breaks_round_trip :
    upload_file (str2bytes "a,b") [7]
        ((str2bytes "ack" ++ [13, 10]) ++ (termBytes ++ []))
      = (.ok (), [], uploadCmdBytes (str2bytes "a,b") (List.length [7]) ++ [7])
    ∧ read_file (str2bytes "a,b") (gfReply (str2bytes "a,b") [7])
      = (.error (.valueError (str2bytes "invalid literal for int")),
         [13, 10, 7] ++ termBytes, str2bytes "AT+GF=" ++ str2bytes "a,b" ++ crlfB) := by
  constructor
  · have h := upload_file_exchange (str2bytes "a,b") [7] (str2bytes "ack")
      termBytes [] (by decide) (by decide) (by decide)
    rw [if_pos rfl] at h
    exact h
  · simp [read_file, gfReply, readResponse, pyReadline, str2bytes, crlfB,
      termBytes, stripBytes, isWsByte, natToDecimal, splitOnByte, parsePyInt,
      parseDigits, parseDigitsGo, buildException, validUtf8, validUtf8From,
      List.isPrefixOf]

/-- C6 (amended): after the payload phase both transfers compare the next
6 bytes with the literal terminator `\r\nOK\r\n`; on any other 6-byte
sequence the operation fails with an `AssertionError` (not
MalformedResponse), and on the matching sequence it succeeds with the
terminator excluded from the returned payload. -/
theorem c6_terminator_mismatch_raises_assertion :
    ∀ (nameB data ack t rest : List Nat),
      10 ∉ ack →
      (str2bytes "ERROR").isPrefixOf (ack ++ [13, 10]) = false →
      t.length = 6 → 10 ∉ nameB → 44 ∉ nameB →
      (upload_file nameB data ((ack ++ [13, 10]) ++ (t ++ rest))
        = (if t = termBytes
           then (.ok (), rest, uploadCmdBytes nameB data.length ++ data)
           else (.error .assertionError, rest,
                 uploadCmdBytes nameB data.length ++ data)))
      ∧ (read_file nameB
            ((str2bytes "+GF:" ++ nameB ++ [44] ++ natToDecimal data.length
                ++ [13, 10]) ++ ([13, 10] ++ data ++ (t ++ rest)))
          = (if t = termBytes
             then (.ok data, rest, str2bytes "AT+GF=" ++ nameB ++ crlfB)
             else (.error .assertionError, rest,
                   str2bytes "AT+GF=" ++ nameB ++ crlfB))) :=
  fun nameB data ack t rest h1 h2 h3 h4 h5 =>
    ⟨upload_file_exchange nameB data ack t rest h1 h2 h3,
     read_file_gf_exchange nameB data t rest h4 h5 h3⟩

/-- C6 witness: the wrong terminator `NOTOK!` makes both transfers fail
with an `AssertionError` at concrete inputs. -/
theorem c6_terminator_mismatch_raises_assertion_witness :
    upload_file (str2bytes "a") [7]
        ((str2bytes "ack" ++ [13, 10]) ++ (str2bytes "NOTOK!" ++ []))
      = (.error .assertionError, [],
         uploadCmdBytes (str2bytes "a") (List.length [7]) ++ [7])
    ∧ read_file (str2bytes "a")
        ((str2bytes "+GF:" ++ str2bytes "a" ++ [44]
            ++ natToDecimal (List.length [7]) ++ [13, 10])
          ++ ([13, 10] ++ [7] ++ (str2bytes "NOTOK!" ++ [])))
      = (.error .assertionError, [], str2bytes "AT+GF=" ++ str2bytes "a" ++ crlfB) := by
  have h := c6_terminator_mismatch_raises_assertion (str2bytes "a") [7]
    (str2bytes "ack") (str2bytes "NOTOK!") [] (by decide) (by decide)
    (by decide) (by decide) (by decide)
  rcases h with ⟨h1, h2⟩
  rw [if_neg (by decide)] at h1
  rw [if_neg (by decide)] at h2
  exact ⟨h1, h2⟩

/-- C6 counterexample: a non-matching terminator during upload raises an
`AssertionError`, not the MalformedResponse (`IOError`) the claim
states. -/
theorem c6_bad_terminator_not_malformed_response :
    upload_file (str2bytes "f.bin") [9]
        (str2bytes "ready" ++ crlfB ++ str2bytes "NOTOK!")
      = (.error .assertionError, [],
         uploadCmdBytes (str2bytes "f.bin") (List.length [9]) ++ [9]) := by
  simp [upload_file, uploadCmdBytes, deviceReadline, pyReadline, pyRead,
    str2bytes, crlfB, termBytes, stripBytes, isWsByte, natToDecimal,
    buildException, List.isPrefixOf]

/-- C8 (amended): `upload_file` consumes exactly one line as the device's
readiness acknowledgment, whatever its content: an `+evn` event line
arriving first is consumed as that acknowledgment and the payload is
written immediately, with no further line read. -/
theorem c8_event_line_consumed_as_upload_ack :
    ∀ (nameB data e extra : List Nat),
      (str2bytes "+evn").isPrefixOf e = true → 10 ∉ e →
      upload_file nameB data ((e ++ [13, 10]) ++ (termBytes ++ extra))
        = (.ok (), extra, uploadCmdBytes nameB data.length ++ data) := by
  intro nameB data e extra hpe h10
  have h := upload_file_exchange nameB data e termBytes extra h10
    (not_error_of_evn e hpe) (by decide)
  rw [if_pos rfl] at h
  exact h

/-- C8 witness: the event line `+evn:x` serves as the acknowledgment at a
concrete input. -/
theorem c8_event_line_consumed_as_upload_ack_witness :
    upload_file (str2bytes "p") [5]
        ((str2bytes "+evn:x" ++ [13, 10]) ++ (termBytes ++ []))
      = (.ok (), [], uploadCmdBytes (str2bytes "p") (List.length [5]) ++ [5]) :=
  c8_event_line_consumed_as_upload_ack (str2bytes "p") [5] (str2bytes "+evn:x")
    [] (by decide) (by decide)

/-- C8 counterexample: when an `+evn` line arrives first, `upload_file`
completes successfully using it as the acknowledgment — the event is not
discarded and no further line is read before the payload is written, so
the claim fails. -/
theorem c8_upload_mistakes_event_for_ack :
    upload_file (str2bytes "q") [3]
        (str2bytes "+evn:busy" ++ crlfB ++ termBytes)
      = (.ok (), [], uploadCmdBytes (str2bytes "q") (List.length [3]) ++ [3]) := by
  simp [upload_file, uploadCmdBytes, deviceReadline, pyReadline, pyRead,
    str2bytes, crlfB, termBytes, stripBytes, isWsByte, natToDecimal,
    buildException, List.isPrefixOf]

/-- C7: a `+GF:` header reply with no comma makes `read_file` fail with
the malformed-response `IOError` before any payload read is attempted —
no byte beyond the header line is consumed from the transport. -/
theorem c7_malformed_gf_header_fails_before_payload_read :
    ∀ (nameB hdr rest : List Nat), 10 ∉ hdr →
      (str2bytes "ERROR").isPrefixOf (hdr ++ [13, 10]) = false →
      (str2bytes "+GF:").isPrefixOf (stripBytes (hdr ++ [13, 10])) = true →
      44 ∉ stripBytes (hdr ++ [13, 10]) →
      read_file nameB ((hdr ++ [13, 10]) ++ rest)
        = (.error (.ioError (str2bytes "Malformed response to command AT+GF")),
           rest, str2bytes "AT+GF=" ++ nameB ++ crlfB) := by
  intro nameB hdr rest h10 hErr hpx hnc
  have step := readResponse_step (str2bytes "+GF:") hdr rest h10 hErr
  rw [hpx] at step
  simp only [if_true] at step
  rw [read_file]
  simp only [step]
  rw [if_neg hnc]

/-- C7 witness: the comma-free header `+GF:nocomma` fails the download
while leaving the byte after the header line unconsumed. -/
theorem c7_malformed_gf_header_fails_before_payload_read_witness :
    read_file (str2bytes "x") ((str2bytes "+GF:nocomma" ++ [13, 10]) ++ [88])
      = (.error (.ioError (str2bytes "Malformed response to command AT+GF")),
         [88], str2bytes "AT+GF=" ++ str2bytes "x" ++ crlfB) :=
  c7_malformed_gf_header_fails_before_payload_read (str2bytes "x")
    (str2bytes "+GF:nocomma") [88] (by decide) (by decide) (by decide) (by decide)

/-- C9: out-of-range brightness values fail locally with the range
`ValueError` (the code's InvalidArgument) and write nothing to the
transport; in-range values write exactly `AT+DB=<b>` + CRLF, and success
implies the awaited reply line starts with `OK`. -/
theorem c9_set_display_brightness_validation :
    ∀ (b : Int) (input : List Nat),
      ((b < 1 ∨ 100 < b) →
        set_display_brightness b input
          = (.error (.valueError
               (str2bytes "Brightness must be between 1 and 100")), input, []))
      ∧ (1 ≤ b → b ≤ 100 →
          (set_display_brightness b input).2.2
            = str2bytes "AT+DB=" ++ intToDecimal b ++ crlfB
          ∧ ((set_display_brightness b input).1 = .ok () →
              ∃ l r, readResponse (str2bytes "OK") input = (.ok l, r)
                ∧ (str2bytes "OK").isPrefixOf l = true)) := by
  intro b input
  constructor
  · intro hout
    rw [set_display_brightness, if_pos hout]
  · intro h1 h100
    have hin : ¬ (b < 1 ∨ 100 < b) := by omega
    rw [set_display_brightness, if_neg hin]
    rcases hr : readResponse (str2bytes "OK") input with ⟨res, rest⟩
    cases res with
    | ok l =>
      constructor
      · simp [hr]
      · intro _
        exact ⟨l, rest, rfl, readResponse_ok_pfx (str2bytes "OK") input l rest hr⟩
    | error e =>
      constructor
      · simp [hr]
      · intro hok
        simp [hr] at hok

/-- C9 witness: brightness 0 and 101 fail locally writing nothing;
brightness 50 writes `AT+DB=50` + CRLF and succeeds on reply `OK`. -/
theorem c9_set_display_brightness_validation_witness :
    set_display_brightness 0 []
      = (.error (.valueError
          (str2bytes "Brightness must be between 1 and 100")), [], [])
    ∧ set_display_brightness 101 []
      = (.error (.valueError
          (str2bytes "Brightness must be between 1 and 100")), [], [])
    ∧ (set_display_brightness 50 (str2bytes "OK" ++ crlfB)).2.2
      = str2bytes "AT+DB=" ++ intToDecimal 50 ++ crlfB
    ∧ (∃ l r, readResponse (str2bytes "OK") (str2bytes "OK" ++ crlfB)
        = (.ok l, r) ∧ (str2bytes "OK").isPrefixOf l = true) := by
  refine ⟨(c9_set_display_brightness_validation 0 []).1 (by omega),
    (c9_set_display_brightness_validation 101 []).1 (by omega),
    ((c9_set_display_brightness_validation 50 (str2bytes "OK" ++ crlfB)).2
      (by omega) (by omega)).1,
    ((c9_set_display_brightness_validation 50 (str2bytes "OK" ++ crlfB)).2
      (by omega) (by omega)).2 ?_⟩
  simp [set_display_brightness, readResponse, pyReadline, str2bytes, crlfB,
    stripBytes, isWsByte, List.isPrefixOf]

theorem listPicturesLoop_step (c rest : List Nat) (h10 : 10 ∉ c)
    (hErr : (str2bytes "ERROR").isPrefixOf (c ++ [13, 10]) = false) :
    listPicturesLoop ((c ++ [13, 10]) ++ rest) =
      if (str2bytes "+evn").isPrefixOf (stripBytes (c ++ [13, 10]))
      then listPicturesLoop rest
      else if (str2bytes "OK").isPrefixOf (stripBytes (c ++ [13, 10]))
      then (.ok [], rest)
      else
        match parsePictureLine (stripBytes (c ++ [13, 10])) with
        | .error e => (.error e, rest)
        | .ok entry =>
          match listPicturesLoop rest with
          | (.ok es, r) => (.ok (entry :: es), r)
          | (.error e, r) => (.error e, r) := by
  have h1 : pyReadline ((c ++ [13, 10]) ++ rest) = some (c ++ [13, 10], rest) := by
    rw [show (c ++ [13, 10]) ++ rest = (c ++ [13]) ++ 10 :: rest by simp]
    have h10' : 10 ∉ c ++ [13] := by
      intro hm
      rcases List.mem_append.mp hm with h' | h'
      · exact h10 h'
      · simp at h'
    have := pyReadline_line (c ++ [13]) rest h10'
    rw [this]
    simp
  rw [listPicturesLoop.eq_def, h1]
  simp only [hErr]
  simp

theorem listFilesLoop_step (c rest : List Nat) (h10 : 10 ∉ c)
    (hErr : (str2bytes "ERROR").isPrefixOf (c ++ [13, 10]) = false) :
    listFilesLoop ((c ++ [13, 10]) ++ rest) =
      if (str2bytes "+evn").isPrefixOf (stripBytes (c ++ [13, 10]))
      then listFilesLoop rest
      else if (str2bytes "OK").isPrefixOf (stripBytes (c ++ [13, 10]))
      then (.ok [], rest)
      else
        match parseFileLine (stripBytes (c ++ [13, 10])) with
        | .error e => (.error e, rest)
        | .ok entry =>
          match listFilesLoop rest with
          | (.ok es, r) => (.ok (entry :: es), r)
          | (.error e, r) => (.error e, r) := by
  have h1 : pyReadline ((c ++ [13, 10]) ++ rest) = some (c ++ [13, 10], rest) := by
    rw [show (c ++ [13, 10]) ++ rest = (c ++ [13]) ++ 10 :: rest by simp]
    have h10' : 10 ∉ c ++ [13] := by
      intro hm
      rcases List.mem_append.mp hm with h' | h'
      · exact h10 h'
      · simp at h'
    have := pyReadline_line (c ++ [13]) rest h10'
    rw [this]
    simp
  rw [listFilesLoop.eq_def, h1]
  simp only [hErr]
  simp

/-- C10: listings accumulate entries until the `OK` sentinel and discard
`+evn` lines: `list_files` returns the empty sequence when the first
(non-event) line is `OK`; `list_pictures` parses `+PL:cat.gif,1024`,
`+PL:dog.gif,2048`, `OK` into the two FILE entries; both loops skip an
event line and continue. -/
theorem c10_listing_accumulation :
    (∀ rest, list_files ((str2bytes "OK" ++ [13, 10]) ++ rest)
        = (.ok [], rest, str2bytes "AT+GFL" ++ crlfB))
    ∧ list_pictures (str2bytes "+PL:cat.gif,1024" ++ crlfB
          ++ str2bytes "+PL:dog.gif,2048" ++ crlfB ++ str2bytes "OK" ++ crlfB)
        = (.ok [⟨str2bytes "cat.gif", 1024, .file⟩,
                ⟨str2bytes "dog.gif", 2048, .file⟩], [],
           str2bytes "AT+GPL" ++ crlfB)
    ∧ (∀ e rest, (str2bytes "+evn").isPrefixOf e = true → 10 ∉ e →
        (str2bytes "+evn").isPrefixOf (stripBytes (e ++ [13, 10])) = true →
        listPicturesLoop ((e ++ [13, 10]) ++ rest) = listPicturesLoop rest
        ∧ listFilesLoop ((e ++ [13, 10]) ++ rest) = listFilesLoop rest) := by
  refine ⟨?_, ?_, ?_⟩
  · intro rest
    have h := listFilesLoop_step (str2bytes "OK") rest (by decide) (by decide)
    rw [if_neg (by decide), if_pos (by decide)] at h
    have h' : listFilesLoop (str2bytes "OK" ++ 13 :: 10 :: rest)
        = (.ok [], rest) := by simpa using h
    simp [list_files, h']
  · simp [list_pictures, listPicturesLoop, pyReadline, str2bytes, crlfB,
      stripBytes, isWsByte, parsePictureLine, removePrefixBytes, splitOnByte,
      parsePyInt, parseDigits, parseDigitsGo, validUtf8, validUtf8From,
      buildException, List.isPrefixOf]
  · intro e rest hpe h10 hpes
    have hErr := not_error_of_evn e hpe
    constructor
    · have h := listPicturesLoop_step e rest h10 hErr
      rw [hpes] at h
      simpa using h
    · have h := listFilesLoop_step e rest h10 hErr
      rw [hpes] at h
      simpa using h

/-- C10 witness: the event-skip clause at the concrete event line
`+evn:new`. -/
theorem c10_listing_accumulation_witness :
    list_files ((str2bytes "OK" ++ [13, 10]) ++ [])
      = (.ok [], [], str2bytes "AT+GFL" ++ crlfB)
    ∧ (listPicturesLoop ((str2bytes "+evn:new" ++ [13, 10]) ++ [])
        = listPicturesLoop []
      ∧ listFilesLoop ((str2bytes "+evn:new" ++ [13, 10]) ++ [])
        = listFilesLoop []) :=
  ⟨c10_listing_accumulation.1 [],
   c10_listing_accumulation.2.2 (str2bytes "+evn:new") [] (by decide)
     (by decide) (by decide)⟩
